import Mathlib

/-!
# Verification of the UPnP pose-solver pipeline (theia/sfm/pose/upnp.cc)

A shallow embedding of the UPnP (Universal Perspective-n-Point) solver
pipeline found in `src/theia/sfm/pose/upnp.cc`.  The C++ code works over
`double`; here exact rational arithmetic (`ℚ`) models the intended real
arithmetic.  Eigen's fixed-size vectors and matrices become functions out of
`Fin n` / Mathlib matrices.  `CHECK_*` contract macros (which abort the
process) and out-of-bounds `std::vector` indexing (undefined behaviour)
are modelled by an `Except` monad with two distinguished error outcomes,
so that every run of the embedded pipeline is total and inspectable.
-/

open scoped Matrix

/-- Vector of 3 rationals: models `Eigen::Vector3d`. -/
abbrev Vec3 := Fin 3 → ℚ

/-- Vector of 4 rationals: models `Eigen::Quaterniond` coefficients
`(w, x, y, z)`. -/
abbrev Vec4 := Fin 4 → ℚ

/-- Models the typedef `Vector10d` (`Eigen::Matrix<double, 10, 1>`). -/
abbrev Vector10d := Fin 10 → ℚ

/-- Rational 3×3 matrix: models `Eigen::Matrix3d`. -/
abbrev Matrix3 := Matrix (Fin 3) (Fin 3) ℚ

/-- Models the typedef `Matrix3x10d` (`Eigen::Matrix<double, 3, 10>`). -/
abbrev Matrix3x10d := Matrix (Fin 3) (Fin 10) ℚ

/-- Models the typedef `Matrix10d` (`Eigen::Matrix<double, 10, 10>`). -/
abbrev Matrix10d := Matrix (Fin 10) (Fin 10) ℚ

/-- The two ways the embedded pipeline can abort: a failed `CHECK_*`
contract macro, or an out-of-bounds `std::vector` element access. -/
inductive UpnpError : Type
  | checkFailure : UpnpError
  | oobAccess : UpnpError
  deriving DecidableEq

/-- Models `std::vector::operator[]`: in-bounds access yields the element,
out-of-bounds access is undefined behaviour, modelled as the `oobAccess`
error. -/
def vecIndex {α : Type} (l : List α) (i : Nat) : Except UpnpError α :=
  match l.get? i with
  | some a => Except.ok a
  | none => Except.error UpnpError.oobAccess

/-- Determinant of a 3×3 matrix by cofactor expansion, as Eigen's
fixed-size `inverse()` computes it. -/
def det3 (m : Matrix3) : ℚ :=
  m 0 0 * m 1 1 * m 2 2 - m 0 0 * m 1 2 * m 2 1 - m 0 1 * m 1 0 * m 2 2 +
    m 0 1 * m 1 2 * m 2 0 + m 0 2 * m 1 0 * m 2 1 - m 0 2 * m 1 1 * m 2 0

/-- Adjugate (transposed cofactor matrix) of a 3×3 matrix. -/
def adj3 (m : Matrix3) : Matrix3 :=
  Matrix.of
    ![![m 1 1 * m 2 2 - m 1 2 * m 2 1, m 0 2 * m 2 1 - m 0 1 * m 2 2,
        m 0 1 * m 1 2 - m 0 2 * m 1 1],
      ![m 1 2 * m 2 0 - m 1 0 * m 2 2, m 0 0 * m 2 2 - m 0 2 * m 2 0,
        m 0 2 * m 1 0 - m 0 0 * m 1 2],
      ![m 1 0 * m 2 1 - m 1 1 * m 2 0, m 0 1 * m 2 0 - m 0 0 * m 2 1,
        m 0 0 * m 1 1 - m 0 1 * m 1 0]]

/-- Eigen's fixed-size 3×3 `inverse()`: cofactor formula.  (On a singular
matrix Eigen divides by zero; over `ℚ` the junk value is the zero matrix,
which coincides with Mathlib's total `Matrix.inv`.) -/
def inverse3 (m : Matrix3) : Matrix3 := (det3 m)⁻¹ • adj3 m

/-- Computes `ray * ray.transpose()`: the outer product of a ray direction with
itself. -/
def rayOuterProduct (ray : Vec3) : Matrix3 := Matrix.vecMulVec ray ray

/-- Embeds `ComputeHMatrixAndRayDirectionsOuterProducts` (upnp.cc lines
56–68): accumulates the outer products of the ray directions, forms
`h_inverse = N·I − Σᵢ dᵢdᵢᵀ` and returns `(h_inverse.inverse(),
outer_products)`. -/
def ComputeHMatrixAndRayDirectionsOuterProducts (ray_directions : List Vec3) :
    Matrix3 × List Matrix3 :=
  let acc := ray_directions.foldl
    (fun (st : List Matrix3 × Matrix3) ray =>
      (st.1 ++ [rayOuterProduct ray], st.2 - rayOuterProduct ray))
    ([], 0)
  let h_inverse := acc.2 + (ray_directions.length : ℚ) • (1 : Matrix3)
  (inverse3 h_inverse, acc.1)

/-- Embeds `LeftMultiply` (upnp.cc lines 70–108): the fixed 3×10
"Φ" matrix of a world point, reproducing the sign/scale table entry for
entry. -/
def LeftMultiply (point : Vec3) : Matrix3x10d :=
  Matrix.of
    ![![point 0, point 0, -point 0, -point 0, 0, 2 * point 2, -(2 * point 1),
        2 * point 1, 2 * point 2, 0],
      ![point 1, -point 1, point 1, -point 1, -(2 * point 2), 0, 2 * point 0,
        2 * point 0, 0, 2 * point 2],
      ![point 2, -point 2, -point 2, point 2, 2 * point 1, -(2 * point 0), 0,
        0, 2 * point 0, 2 * point 1]]

/-- One iteration of the loop of `ComputeHelperMatrices` (upnp.cc lines
121–129): reads `outer_products[i]`, `world_points[i]`, `ray_origins[i]`
(in the source's access order) and accumulates onto `(g_matrix, j_matrix)`. -/
def helperBody (world_points ray_origins : List Vec3)
    (outer_products : List Matrix3) (h_matrix : Matrix3)
    (gj : Matrix3x10d × Vec3) (i : Nat) :
    Except UpnpError (Matrix3x10d × Vec3) := do
  let outer_product ← vecIndex outer_products i
  let v_matrix := h_matrix * (outer_product - 1)
  let wp ← vecIndex world_points i
  let left_multiply_mat := LeftMultiply wp
  let ro ← vecIndex ray_origins i
  Except.ok (gj.1 + v_matrix * left_multiply_mat, gj.2 + v_matrix.mulVec ro)

/-- Embeds `ComputeHelperMatrices` (upnp.cc lines 110–130).  The
`CHECK_EQ(ray_origins.size(), outer_products.size())` guard becomes the
`checkFailure` branch; the indexed loop becomes a monadic fold over
`List.range`.  Returns `(g_matrix, j_matrix)`. -/
def ComputeHelperMatrices (world_points ray_origins : List Vec3)
    (outer_products : List Matrix3) (h_matrix : Matrix3) :
    Except UpnpError (Matrix3x10d × Vec3) :=
  if ray_origins.length = outer_products.length then
    (List.range ray_origins.length).foldlM
      (helperBody world_points ray_origins outer_products h_matrix) (0, 0)
  else Except.error UpnpError.checkFailure

/-- One iteration of the loop of `ComputeCostMatrices` (upnp.cc lines
150–165): reads `world_points[i]`, `outer_products[i]`, `ray_origins[i]`
(in the source's access order) and accumulates onto
`(a_matrix, b_vector, gamma)`. -/
def costBody (world_points ray_origins : List Vec3)
    (outer_products : List Matrix3) (g_matrix : Matrix3x10d) (j_matrix : Vec3)
    (abg : Matrix10d × Vector10d × ℚ) (i : Nat) :
    Except UpnpError (Matrix10d × Vector10d × ℚ) := do
  let wp ← vecIndex world_points i
  let left_multiply_mat := LeftMultiply wp
  let op ← vecIndex outer_products i
  let outer_prod_minus_identity := op - 1
  let temp_a_mat := outer_prod_minus_identity * (left_multiply_mat + g_matrix)
  let ro ← vecIndex ray_origins i
  let temp_b_mat := (-outer_prod_minus_identity).mulVec (ro + j_matrix)
  Except.ok (abg.1 + temp_a_matᵀ * temp_a_mat,
    abg.2.1 + temp_a_matᵀ.mulVec temp_b_mat,
    abg.2.2 + Matrix.dotProduct temp_b_mat temp_b_mat)

/-- Embeds `ComputeCostMatrices` (upnp.cc lines 137–168): the indexed loop
accumulating `a_matrix`, `b_vector` and the returned scalar `gamma`.
Returns `(a_matrix, b_vector, gamma)`. -/
def ComputeCostMatrices (world_points ray_origins : List Vec3)
    (outer_products : List Matrix3) (g_matrix : Matrix3x10d)
    (j_matrix : Vec3) :
    Except UpnpError (Matrix10d × Vector10d × ℚ) :=
  (List.range world_points.length).foldlM
    (costBody world_points ray_origins outer_products g_matrix j_matrix)
    (0, 0, 0)

/-- Embeds `Upnp` (upnp.cc lines 173–207).  The two output pointers are
modelled as `Option` prior contents; `CHECK_NOTNULL(p)->clear()` becomes a
match that fails on `none` and discards the prior contents.  The function
runs the three pipeline stages and — the observed code never appends to
either output — returns the cleared (empty) solution lists. -/
def Upnp (ray_origins ray_directions world_points : List Vec3)
    (solution_rotations : Option (List Vec4))
    (solution_translations : Option (List Vec3)) :
    Except UpnpError (List Vec4 × List Vec3) :=
  match solution_rotations, solution_translations with
  | some _, some _ => do
    let hop := ComputeHMatrixAndRayDirectionsOuterProducts ray_directions
    let gj ← ComputeHelperMatrices world_points ray_origins hop.2 hop.1
    let _abg ← ComputeCostMatrices world_points ray_origins hop.2 gj.1 gj.2
    Except.ok ([], [])
  | _, _ => Except.error UpnpError.checkFailure

/-- The intermediate quantities of one `Upnp` run, for stating claims about
the values the pipeline computes: `(H, (G, J), (A, b, γ))`.  This is the
composition of the three embedded stages exactly as `Upnp` chains them. -/
def UpnpPipeline (ray_origins ray_directions world_points : List Vec3) :
    Except UpnpError (Matrix3 × (Matrix3x10d × Vec3) × (Matrix10d × Vector10d × ℚ)) := do
  let hop := ComputeHMatrixAndRayDirectionsOuterProducts ray_directions
  let gj ← ComputeHelperMatrices world_points ray_origins hop.2 hop.1
  let abg ← ComputeCostMatrices world_points ray_origins hop.2 gj.1 gj.2
  Except.ok (hop.1, gj, abg)

/-- The per-correspondence matrix `V_i = H·(outer_product_i − I)` of
Eq. (5) (upnp.cc line 124), read off with total list indexing. -/
def vMatrix (outer_products : List Matrix3) (h_matrix : Matrix3) (i : Nat) :
    Matrix3 :=
  h_matrix * (outer_products.getD i 0 - 1)

/-- The per-correspondence matrix
`Temp_A_i = (outer_product_i − I)·(Φ(worldPoint_i) + G)` (upnp.cc lines
156–157), read off with total list indexing. -/
def tempAMat (world_points : List Vec3) (outer_products : List Matrix3)
    (g_matrix : Matrix3x10d) (i : Nat) : Matrix3x10d :=
  (outer_products.getD i 0 - 1) *
    (LeftMultiply (world_points.getD i 0) + g_matrix)

/-- The per-correspondence vector
`Temp_B_i = −(outer_product_i − I)·(origin_i + J)` (upnp.cc lines
160–161), read off with total list indexing. -/
def tempBVec (ray_origins : List Vec3) (outer_products : List Matrix3)
    (j_matrix : Vec3) (i : Nat) : Vec3 :=
  (-(outer_products.getD i 0 - 1)).mulVec (ray_origins.getD i 0 + j_matrix)

/-- The pure accumulation step of the `ComputeHelperMatrices` loop: the
value `helperBody` produces when all three indexed accesses are in
bounds. -/
def helperStep (world_points ray_origins : List Vec3)
    (outer_products : List Matrix3) (h_matrix : Matrix3)
    (gj : Matrix3x10d × Vec3) (i : Nat) : Matrix3x10d × Vec3 :=
  (gj.1 + vMatrix outer_products h_matrix i *
      LeftMultiply (world_points.getD i 0),
   gj.2 + (vMatrix outer_products h_matrix i).mulVec (ray_origins.getD i 0))

/-- The pure accumulation step of the `ComputeCostMatrices` loop: the
value `costBody` produces when all three indexed accesses are in bounds. -/
def costStep (world_points ray_origins : List Vec3)
    (outer_products : List Matrix3) (g_matrix : Matrix3x10d) (j_matrix : Vec3)
    (abg : Matrix10d × Vector10d × ℚ) (i : Nat) :
    Matrix10d × Vector10d × ℚ :=
  ((abg.1 + (tempAMat world_points outer_products g_matrix i)ᵀ *
      tempAMat world_points outer_products g_matrix i,
    abg.2.1 + (tempAMat world_points outer_products g_matrix i)ᵀ.mulVec
      (tempBVec ray_origins outer_products j_matrix i),
    abg.2.2 + Matrix.dotProduct (tempBVec ray_origins outer_products j_matrix i)
      (tempBVec ray_origins outer_products j_matrix i)))

/-- The fixed 10-dimensional quadratic-monomial vector
`q̂ = (q0², q1², q2², q3², q0q1, q0q2, q0q3, q1q2, q1q3, q2q3)` of a
quaternion `q = (q0, q1, q2, q3)`. -/
def qhat (q : Vec4) : Vector10d :=
  ![q 0 * q 0, q 1 * q 1, q 2 * q 2, q 3 * q 3, q 0 * q 1, q 0 * q 2,
    q 0 * q 3, q 1 * q 2, q 1 * q 3, q 2 * q 3]

/-- Modelled from the spec: the standard quaternion-to-rotation-matrix
formula `R(q)` for a unit quaternion `q = (q0, q1, q2, q3)` (the missing
stage-5 Pose Reconstructor converts quaternions with this formula).  Used
only to state what the `LeftMultiply` table must reproduce. -/
def quatRotationMatrix (q : Vec4) : Matrix3 :=
  Matrix.of
    ![![1 - 2 * (q 2 * q 2 + q 3 * q 3), 2 * (q 1 * q 2 - q 0 * q 3),
        2 * (q 1 * q 3 + q 0 * q 2)],
      ![2 * (q 1 * q 2 + q 0 * q 3), 1 - 2 * (q 1 * q 1 + q 3 * q 3),
        2 * (q 2 * q 3 - q 0 * q 1)],
      ![2 * (q 1 * q 3 - q 0 * q 2), 2 * (q 2 * q 3 + q 0 * q 1),
        1 - 2 * (q 1 * q 1 + q 2 * q 2)]]

/-- The outer-product list the pipeline computes from the ray
directions. -/
def pipeOps (ray_directions : List Vec3) : List Matrix3 :=
  ray_directions.map rayOuterProduct

/-- The `H` matrix the pipeline computes. -/
def pipeH (ray_directions : List Vec3) : Matrix3 :=
  inverse3 ((ray_directions.length : ℚ) • (1 : Matrix3) -
    (pipeOps ray_directions).sum)

/-- The `G` matrix the pipeline computes (on equal-length inputs). -/
def pipeG (ray_origins ray_directions world_points : List Vec3) :
    Matrix3x10d :=
  ∑ i ∈ Finset.range ray_origins.length,
    vMatrix (pipeOps ray_directions) (pipeH ray_directions) i *
      LeftMultiply (world_points.getD i 0)

/-- The `J` vector the pipeline computes (on equal-length inputs). -/
def pipeJ (ray_origins ray_directions : List Vec3) : Vec3 :=
  ∑ i ∈ Finset.range ray_origins.length,
    (vMatrix (pipeOps ray_directions) (pipeH ray_directions) i).mulVec
      (ray_origins.getD i 0)

/-- The `A` matrix the pipeline computes (on equal-length inputs). -/
def pipeA (ray_origins ray_directions world_points : List Vec3) : Matrix10d :=
  ∑ i ∈ Finset.range world_points.length,
    (tempAMat world_points (pipeOps ray_directions)
        (pipeG ray_origins ray_directions world_points) i)ᵀ *
      tempAMat world_points (pipeOps ray_directions)
        (pipeG ray_origins ray_directions world_points) i

/-- The `b` vector the pipeline computes (on equal-length inputs). -/
def pipeB (ray_origins ray_directions world_points : List Vec3) : Vector10d :=
  ∑ i ∈ Finset.range world_points.length,
    (tempAMat world_points (pipeOps ray_directions)
        (pipeG ray_origins ray_directions world_points) i)ᵀ.mulVec
      (tempBVec ray_origins (pipeOps ray_directions)
        (pipeJ ray_origins ray_directions) i)

/-- The scalar `γ` the pipeline computes (on equal-length inputs). -/
def pipeGamma (ray_origins ray_directions world_points : List Vec3) : ℚ :=
  ∑ i ∈ Finset.range world_points.length,
    Matrix.dotProduct
      (tempBVec ray_origins (pipeOps ray_directions)
        (pipeJ ray_origins ray_directions) i)
      (tempBVec ray_origins (pipeOps ray_directions)
        (pipeJ ray_origins ray_directions) i)

/-! ## Basic lemmas about the monadic plumbing -/

theorem vecIndex_ok {α : Type} (l : List α) (d : α) {i : Nat}
    (h : i < l.length) : vecIndex l i = Except.ok (l.getD i d) := by
  simp [vecIndex, List.getElem?_eq_getElem h, List.getD_eq_getElem l d h]

theorem vecIndex_err {α : Type} (l : List α) {i : Nat}
    (h : l.length ≤ i) : vecIndex l i = Except.error UpnpError.oobAccess := by
  simp [vecIndex, List.getElem?_eq_none h]

theorem foldlM_ok_of_forall {β : Type} (f : β → Nat → Except UpnpError β)
    (g : β → Nat → β) :
    ∀ (l : List Nat), (∀ b i, i ∈ l → f b i = Except.ok (g b i)) →
      ∀ b, l.foldlM f b = Except.ok (l.foldl g b) := by
  intro l
  induction l with
  | nil => intro _ b; rfl
  | cons a l ih =>
    intro hall b
    have ha := hall b a (by simp)
    simp only [List.foldlM, ha, List.foldl]
    exact ih (fun b' i hi => hall b' i (by simp [hi])) (g b a)

theorem helperBody_ok (world_points ray_origins : List Vec3)
    (outer_products : List Matrix3) (h_matrix : Matrix3)
    (gj : Matrix3x10d × Vec3) {i : Nat}
    (h1 : i < world_points.length) (h2 : i < ray_origins.length)
    (h3 : i < outer_products.length) :
    helperBody world_points ray_origins outer_products h_matrix gj i =
      Except.ok (helperStep world_points ray_origins outer_products h_matrix
        gj i) := by
  simp [helperBody, helperStep, vMatrix, Bind.bind, Except.bind,
    vecIndex_ok world_points (0 : Vec3) h1,
    vecIndex_ok ray_origins (0 : Vec3) h2,
    vecIndex_ok outer_products (0 : Matrix3) h3]

theorem costBody_ok (world_points ray_origins : List Vec3)
    (outer_products : List Matrix3) (g_matrix : Matrix3x10d)
    (j_matrix : Vec3) (abg : Matrix10d × Vector10d × ℚ) {i : Nat}
    (h1 : i < world_points.length) (h2 : i < ray_origins.length)
    (h3 : i < outer_products.length) :
    costBody world_points ray_origins outer_products g_matrix j_matrix abg i =
      Except.ok (costStep world_points ray_origins outer_products g_matrix
        j_matrix abg i) := by
  simp [costBody, costStep, tempAMat, tempBVec, Bind.bind, Except.bind,
    vecIndex_ok world_points (0 : Vec3) h1,
    vecIndex_ok ray_origins (0 : Vec3) h2,
    vecIndex_ok outer_products (0 : Matrix3) h3]

/-! ## Closed forms of the three pipeline stages -/

theorem computeH_foldl_aux (rds : List Vec3) :
    ∀ (l : List Matrix3) (m : Matrix3),
      rds.foldl (fun (st : List Matrix3 × Matrix3) ray =>
          (st.1 ++ [rayOuterProduct ray], st.2 - rayOuterProduct ray)) (l, m) =
        (l ++ rds.map rayOuterProduct, m - (rds.map rayOuterProduct).sum) := by
  induction rds with
  | nil => intro l m; simp
  | cons r rds ih =>
    intro l m
    simp only [List.foldl, List.map, List.sum_cons, ih]
    refine Prod.ext ?_ ?_
    · simp
    · exact sub_sub m _ _

theorem ComputeHMatrixAndRayDirectionsOuterProducts_spec
    (ray_directions : List Vec3) :
    ComputeHMatrixAndRayDirectionsOuterProducts ray_directions =
      (inverse3 ((ray_directions.length : ℚ) • (1 : Matrix3) -
          (ray_directions.map rayOuterProduct).sum),
        ray_directions.map rayOuterProduct) := by
  unfold ComputeHMatrixAndRayDirectionsOuterProducts
  rw [computeH_foldl_aux]
  simp only [List.nil_append]
  refine Prod.ext ?_ rfl
  simp only
  rw [zero_sub, neg_add_eq_sub]

theorem helper_foldl_spec (world_points ray_origins : List Vec3)
    (outer_products : List Matrix3) (h_matrix : Matrix3) (n : Nat) :
    (List.range n).foldl
        (helperStep world_points ray_origins outer_products h_matrix)
        (0, 0) =
      (∑ i ∈ Finset.range n, vMatrix outer_products h_matrix i *
          LeftMultiply (world_points.getD i 0),
       ∑ i ∈ Finset.range n, (vMatrix outer_products h_matrix i).mulVec
          (ray_origins.getD i 0)) := by
  induction n with
  | zero => simp
  | succ n ih =>
    rw [List.range_succ, List.foldl_append, ih]
    simp [helperStep, Finset.sum_range_succ]

theorem cost_foldl_spec (world_points ray_origins : List Vec3)
    (outer_products : List Matrix3) (g_matrix : Matrix3x10d)
    (j_matrix : Vec3) (n : Nat) :
    (List.range n).foldl
        (costStep world_points ray_origins outer_products g_matrix j_matrix)
        (0, 0, 0) =
      (∑ i ∈ Finset.range n,
          (tempAMat world_points outer_products g_matrix i)ᵀ *
            tempAMat world_points outer_products g_matrix i,
       ∑ i ∈ Finset.range n,
          (tempAMat world_points outer_products g_matrix i)ᵀ.mulVec
            (tempBVec ray_origins outer_products j_matrix i),
       ∑ i ∈ Finset.range n,
          Matrix.dotProduct (tempBVec ray_origins outer_products j_matrix i)
            (tempBVec ray_origins outer_products j_matrix i)) := by
  induction n with
  | zero => simp
  | succ n ih =>
    rw [List.range_succ, List.foldl_append, ih]
    simp [costStep, Finset.sum_range_succ]

theorem ComputeHelperMatrices_ok (world_points ray_origins : List Vec3)
    (outer_products : List Matrix3) (h_matrix : Matrix3)
    (h1 : ray_origins.length = outer_products.length)
    (h2 : world_points.length = ray_origins.length) :
    ComputeHelperMatrices world_points ray_origins outer_products h_matrix =
      Except.ok
        (∑ i ∈ Finset.range ray_origins.length,
            vMatrix outer_products h_matrix i *
              LeftMultiply (world_points.getD i 0),
         ∑ i ∈ Finset.range ray_origins.length,
            (vMatrix outer_products h_matrix i).mulVec
              (ray_origins.getD i 0)) := by
  unfold ComputeHelperMatrices
  rw [if_pos h1,
    foldlM_ok_of_forall _
      (helperStep world_points ray_origins outer_products h_matrix)
      (List.range ray_origins.length)
      (fun b i hi => by
        have hlt : i < ray_origins.length := List.mem_range.mp hi
        exact helperBody_ok world_points ray_origins outer_products h_matrix b
          (h2 ▸ hlt) hlt (h1 ▸ hlt)),
    helper_foldl_spec]

theorem ComputeCostMatrices_ok (world_points ray_origins : List Vec3)
    (outer_products : List Matrix3) (g_matrix : Matrix3x10d) (j_matrix : Vec3)
    (h1 : world_points.length = ray_origins.length)
    (h2 : world_points.length = outer_products.length) :
    ComputeCostMatrices world_points ray_origins outer_products g_matrix
        j_matrix =
      Except.ok
        (∑ i ∈ Finset.range world_points.length,
            (tempAMat world_points outer_products g_matrix i)ᵀ *
              tempAMat world_points outer_products g_matrix i,
         ∑ i ∈ Finset.range world_points.length,
            (tempAMat world_points outer_products g_matrix i)ᵀ.mulVec
              (tempBVec ray_origins outer_products j_matrix i),
         ∑ i ∈ Finset.range world_points.length,
            Matrix.dotProduct (tempBVec ray_origins outer_products j_matrix i)
              (tempBVec ray_origins outer_products j_matrix i)) := by
  unfold ComputeCostMatrices
  rw [foldlM_ok_of_forall _
      (costStep world_points ray_origins outer_products g_matrix j_matrix)
      (List.range world_points.length)
      (fun b i hi => by
        have hlt : i < world_points.length := List.mem_range.mp hi
        exact costBody_ok world_points ray_origins outer_products g_matrix
          j_matrix b hlt (h1 ▸ hlt) (h2 ▸ hlt)),
    cost_foldl_spec]

/-! ## The cofactor inverse agrees with Mathlib's matrix inverse -/

theorem det3_eq (m : Matrix3) : det3 m = m.det := by
  rw [Matrix.det_fin_three]; rfl

theorem adj3_eq (m : Matrix3) : adj3 m = m.adjugate := by
  rw [Matrix.adjugate_fin_three]
  ext i j
  fin_cases i <;> fin_cases j <;> simp [adj3] <;> ring

theorem inverse3_eq_inv (m : Matrix3) : inverse3 m = m⁻¹ := by
  rw [Matrix.inv_def, Ring.inverse_eq_inv, inverse3, det3_eq, adj3_eq]

/-! ## Success of the full pipeline on equal-length inputs -/

theorem outer_products_len (ray_directions : List Vec3) :
    (ComputeHMatrixAndRayDirectionsOuterProducts ray_directions).2.length =
      ray_directions.length := by
  rw [ComputeHMatrixAndRayDirectionsOuterProducts_spec]
  simp

theorem Upnp_ok_of_lengths (ray_origins ray_directions world_points : List Vec3)
    (prior_rotations : List Vec4) (prior_translations : List Vec3)
    (h1 : ray_directions.length = ray_origins.length)
    (h2 : world_points.length = ray_origins.length) :
    Upnp ray_origins ray_directions world_points (some prior_rotations)
        (some prior_translations) = Except.ok ([], []) := by
  have hlen1 : ray_origins.length =
      (ComputeHMatrixAndRayDirectionsOuterProducts ray_directions).2.length := by
    rw [outer_products_len]; exact h1.symm
  have hgj := ComputeHelperMatrices_ok world_points ray_origins
    (ComputeHMatrixAndRayDirectionsOuterProducts ray_directions).2
    (ComputeHMatrixAndRayDirectionsOuterProducts ray_directions).1
    hlen1 h2
  have habg := ComputeCostMatrices_ok world_points ray_origins
    (ComputeHMatrixAndRayDirectionsOuterProducts ray_directions).2
    (∑ i ∈ Finset.range ray_origins.length,
        vMatrix (ComputeHMatrixAndRayDirectionsOuterProducts ray_directions).2
          (ComputeHMatrixAndRayDirectionsOuterProducts ray_directions).1 i *
          LeftMultiply (world_points.getD i 0))
    (∑ i ∈ Finset.range ray_origins.length,
        (vMatrix (ComputeHMatrixAndRayDirectionsOuterProducts ray_directions).2
            (ComputeHMatrixAndRayDirectionsOuterProducts ray_directions).1
            i).mulVec (ray_origins.getD i 0))
    h2 (h2.trans (hlen1.trans rfl))
  simp only [Upnp, hgj, habg, Bind.bind, Except.bind]

theorem dotProduct_self_nonneg3 (v : Vec3) : 0 ≤ Matrix.dotProduct v v := by
  unfold Matrix.dotProduct
  exact Finset.sum_nonneg fun i _ => mul_self_nonneg (v i)

/-! ## Claim theorems -/

/-- C2: for every input, `Upnp` computes the cost quantities but never
populates the candidate lists: whenever the call returns (rather than
aborting), both output sequences are empty, regardless of the inputs and
of any prior contents of the output vectors. -/
theorem c2_upnp_outputs_always_empty
    (ray_origins ray_directions world_points : List Vec3)
    (prior_rotations : List Vec4) (prior_translations : List Vec3)
    (out : List Vec4 × List Vec3)
    (h : Upnp ray_origins ray_directions world_points (some prior_rotations)
      (some prior_translations) = Except.ok out) :
    out.1 = [] ∧ out.2 = [] := by
  simp only [Upnp, Bind.bind, Except.bind] at h
  cases hgj : ComputeHelperMatrices world_points ray_origins
      (ComputeHMatrixAndRayDirectionsOuterProducts ray_directions).2
      (ComputeHMatrixAndRayDirectionsOuterProducts ray_directions).1 with
  | error e => rw [hgj] at h; cases h
  | ok gj =>
    rw [hgj] at h
    dsimp only at h
    cases habg : ComputeCostMatrices world_points ray_origins
        (ComputeHMatrixAndRayDirectionsOuterProducts ray_directions).2
        gj.1 gj.2 with
    | error e => rw [habg] at h; cases h
    | ok abg =>
      rw [habg] at h
      dsimp only at h
      cases h
      exact ⟨rfl, rfl⟩

/-- Witness for C2 at a concrete input: the hypotheses are satisfiable
(the call does return) and the returned lists are empty even though the
output vectors held prior contents. -/
theorem c2_witness :
    Upnp [] [] [] (some [![1, 0, 0, 0]]) (some [![1, 2, 3]]) =
        Except.ok ([], []) ∧
      (([], []) : List Vec4 × List Vec3).1 = [] ∧
      (([], []) : List Vec4 × List Vec3).2 = [] :=
  ⟨Upnp_ok_of_lengths [] [] [] [![1, 0, 0, 0]] [![1, 2, 3]] rfl rfl,
   c2_upnp_outputs_always_empty [] [] [] [![1, 0, 0, 0]] [![1, 2, 3]] ([], [])
     (Upnp_ok_of_lengths [] [] [] [![1, 0, 0, 0]] [![1, 2, 3]] rfl rfl)⟩

/-- C3: the Direction Aggregator retains exactly the outer products
`dᵢ·dᵢᵀ` in input order, and returns `H` that is the matrix inverse of
`N·I − Σᵢ dᵢdᵢᵀ` (a two-sided inverse whenever that matrix is
nonsingular). -/
theorem c3_direction_aggregator_spec (ray_directions : List Vec3)
    (hdet : det3 ((ray_directions.length : ℚ) • (1 : Matrix3) -
      (ray_directions.map rayOuterProduct).sum) ≠ 0) :
    (∀ d : Vec3, ∀ i j, rayOuterProduct d i j = d i * d j) ∧
    (ComputeHMatrixAndRayDirectionsOuterProducts ray_directions).2 =
      ray_directions.map rayOuterProduct ∧
    (ComputeHMatrixAndRayDirectionsOuterProducts ray_directions).1 *
        ((ray_directions.length : ℚ) • (1 : Matrix3) -
          (ray_directions.map rayOuterProduct).sum) = 1 ∧
    ((ray_directions.length : ℚ) • (1 : Matrix3) -
        (ray_directions.map rayOuterProduct).sum) *
      (ComputeHMatrixAndRayDirectionsOuterProducts ray_directions).1 = 1 := by
  have hunit : IsUnit ((ray_directions.length : ℚ) • (1 : Matrix3) -
      (ray_directions.map rayOuterProduct).sum).det :=
    isUnit_iff_ne_zero.mpr (by rwa [← det3_eq])
  refine ⟨fun d i j => by simp [rayOuterProduct, Matrix.vecMulVec_apply], ?_, ?_, ?_⟩
  · rw [ComputeHMatrixAndRayDirectionsOuterProducts_spec]
  · rw [ComputeHMatrixAndRayDirectionsOuterProducts_spec]
    simp only
    rw [inverse3_eq_inv]
    exact Matrix.nonsing_inv_mul _ hunit
  · rw [ComputeHMatrixAndRayDirectionsOuterProducts_spec]
    simp only
    rw [inverse3_eq_inv]
    exact Matrix.mul_nonsing_inv _ hunit

/-- Witness for C3 at the two ray directions `e₁, e₂`: the accumulated
matrix `2·I − e₁e₁ᵀ − e₂e₂ᵀ` is nonsingular and the theorem applies. -/
theorem c3_witness :
    (∀ d : Vec3, ∀ i j, rayOuterProduct d i j = d i * d j) ∧
    (ComputeHMatrixAndRayDirectionsOuterProducts
        ([![1, 0, 0], ![0, 1, 0]] : List Vec3)).2 =
      ([![1, 0, 0], ![0, 1, 0]] : List Vec3).map rayOuterProduct ∧
    (ComputeHMatrixAndRayDirectionsOuterProducts
          ([![1, 0, 0], ![0, 1, 0]] : List Vec3)).1 *
        ((([![1, 0, 0], ![0, 1, 0]] : List Vec3).length : ℚ) • (1 : Matrix3) -
          (([![1, 0, 0], ![0, 1, 0]] : List Vec3).map rayOuterProduct).sum) =
      1 ∧
    ((([![1, 0, 0], ![0, 1, 0]] : List Vec3).length : ℚ) • (1 : Matrix3) -
        (([![1, 0, 0], ![0, 1, 0]] : List Vec3).map rayOuterProduct).sum) *
      (ComputeHMatrixAndRayDirectionsOuterProducts
        ([![1, 0, 0], ![0, 1, 0]] : List Vec3)).1 = 1 :=
  c3_direction_aggregator_spec [![1, 0, 0], ![0, 1, 0]]
    (by
      simp +decide [det3, rayOuterProduct, Matrix.vecMulVec_apply,
        List.map_cons, List.map_nil, List.sum_cons, List.sum_nil,
        Matrix.sub_apply, Matrix.smul_apply, Matrix.add_apply,
        Matrix.zero_apply, Matrix.one_apply]
      norm_num)

/-- C4: for equal-length inputs the Helper-Matrix Builder returns exactly
`G = Σᵢ Vᵢ·Φ(worldPointᵢ)` and `J = Σᵢ Vᵢ·originᵢ`, where
`Vᵢ = H·(outer_productᵢ − I)`. -/
theorem c4_helper_matrices_are_sums (world_points ray_origins : List Vec3)
    (outer_products : List Matrix3) (h_matrix : Matrix3)
    (h1 : world_points.length = ray_origins.length)
    (h2 : ray_origins.length = outer_products.length) :
    ComputeHelperMatrices world_points ray_origins outer_products h_matrix =
        Except.ok
          (∑ i ∈ Finset.range ray_origins.length,
              vMatrix outer_products h_matrix i *
                LeftMultiply (world_points.getD i 0),
           ∑ i ∈ Finset.range ray_origins.length,
              (vMatrix outer_products h_matrix i).mulVec
                (ray_origins.getD i 0)) ∧
      ∀ i, vMatrix outer_products h_matrix i =
        h_matrix * (outer_products.getD i 0 - 1) :=
  ⟨ComputeHelperMatrices_ok world_points ray_origins outer_products h_matrix
      h2 h1,
   fun _ => rfl⟩

/-- Witness for C4 at a concrete one-correspondence input. -/
theorem c4_witness :
    ComputeHelperMatrices [(0 : Vec3)] [(0 : Vec3)] [(0 : Matrix3)] 1 =
        Except.ok
          (∑ i ∈ Finset.range ([(0 : Vec3)] : List Vec3).length,
              vMatrix [(0 : Matrix3)] 1 i *
                LeftMultiply (([(0 : Vec3)] : List Vec3).getD i 0),
           ∑ i ∈ Finset.range ([(0 : Vec3)] : List Vec3).length,
              (vMatrix [(0 : Matrix3)] 1 i).mulVec
                (([(0 : Vec3)] : List Vec3).getD i 0)) ∧
      ∀ i, vMatrix [(0 : Matrix3)] (1 : Matrix3) i =
        1 * (([(0 : Matrix3)] : List Matrix3).getD i 0 - 1) :=
  c4_helper_matrices_are_sums [(0 : Vec3)] [(0 : Vec3)] [(0 : Matrix3)] 1
    rfl rfl

/-- C5: for equal-length inputs the Cost-Matrix Assembler returns exactly
`A = Σᵢ Temp_Aᵢᵀ·Temp_Aᵢ`, `b = Σᵢ Temp_Aᵢᵀ·Temp_Bᵢ` and
`γ = Σᵢ ‖Temp_Bᵢ‖²`, and hence `γ ≥ 0`. -/
theorem c5_cost_matrices_are_sums (world_points ray_origins : List Vec3)
    (outer_products : List Matrix3) (g_matrix : Matrix3x10d) (j_matrix : Vec3)
    (h1 : world_points.length = ray_origins.length)
    (h2 : world_points.length = outer_products.length) :
    ComputeCostMatrices world_points ray_origins outer_products g_matrix
        j_matrix =
      Except.ok
        (∑ i ∈ Finset.range world_points.length,
            (tempAMat world_points outer_products g_matrix i)ᵀ *
              tempAMat world_points outer_products g_matrix i,
         ∑ i ∈ Finset.range world_points.length,
            (tempAMat world_points outer_products g_matrix i)ᵀ.mulVec
              (tempBVec ray_origins outer_products j_matrix i),
         ∑ i ∈ Finset.range world_points.length,
            Matrix.dotProduct (tempBVec ray_origins outer_products j_matrix i)
              (tempBVec ray_origins outer_products j_matrix i)) ∧
      0 ≤ ∑ i ∈ Finset.range world_points.length,
            Matrix.dotProduct (tempBVec ray_origins outer_products j_matrix i)
              (tempBVec ray_origins outer_products j_matrix i) :=
  ⟨ComputeCostMatrices_ok world_points ray_origins outer_products g_matrix
      j_matrix h1 h2,
   Finset.sum_nonneg fun _ _ => dotProduct_self_nonneg3 _⟩

/-- Witness for C5 at a concrete one-correspondence input. -/
theorem c5_witness :
    ComputeCostMatrices [(0 : Vec3)] [(0 : Vec3)] [(0 : Matrix3)] 0 0 =
        Except.ok
          (∑ i ∈ Finset.range ([(0 : Vec3)] : List Vec3).length,
              (tempAMat [(0 : Vec3)] [(0 : Matrix3)] 0 i)ᵀ *
                tempAMat [(0 : Vec3)] [(0 : Matrix3)] 0 i,
           ∑ i ∈ Finset.range ([(0 : Vec3)] : List Vec3).length,
              (tempAMat [(0 : Vec3)] [(0 : Matrix3)] 0 i)ᵀ.mulVec
                (tempBVec [(0 : Vec3)] [(0 : Matrix3)] 0 i),
           ∑ i ∈ Finset.range ([(0 : Vec3)] : List Vec3).length,
              Matrix.dotProduct (tempBVec [(0 : Vec3)] [(0 : Matrix3)] 0 i)
                (tempBVec [(0 : Vec3)] [(0 : Matrix3)] 0 i)) ∧
      0 ≤ ∑ i ∈ Finset.range ([(0 : Vec3)] : List Vec3).length,
            Matrix.dotProduct (tempBVec [(0 : Vec3)] [(0 : Matrix3)] 0 i)
              (tempBVec [(0 : Vec3)] [(0 : Matrix3)] 0 i) :=
  c5_cost_matrices_are_sums [(0 : Vec3)] [(0 : Vec3)] [(0 : Matrix3)] 0 0
    rfl rfl

/-- C10: under the all-equal-lengths precondition every indexed access in
the helper-matrix and cost-matrix loops is in bounds, so no stage of the
pipeline (nor `Upnp` itself) ever reaches the out-of-bounds branch of the
embedding. -/
theorem c10_no_oob_under_equal_lengths
    (ray_origins ray_directions world_points : List Vec3)
    (outer_products : List Matrix3) (g_matrix : Matrix3x10d) (j_matrix : Vec3)
    (h_matrix : Matrix3) (solution_rotations : Option (List Vec4))
    (solution_translations : Option (List Vec3))
    (h1 : ray_directions.length = ray_origins.length)
    (h2 : world_points.length = ray_origins.length)
    (h3 : outer_products.length = ray_origins.length) :
    ComputeHelperMatrices world_points ray_origins outer_products h_matrix ≠
        Except.error UpnpError.oobAccess ∧
      ComputeCostMatrices world_points ray_origins outer_products g_matrix
          j_matrix ≠ Except.error UpnpError.oobAccess ∧
      Upnp ray_origins ray_directions world_points solution_rotations
          solution_translations ≠ Except.error UpnpError.oobAccess := by
  refine ⟨?_, ?_, ?_⟩
  · rw [ComputeHelperMatrices_ok world_points ray_origins outer_products
      h_matrix h3.symm h2]
    simp
  · rw [ComputeCostMatrices_ok world_points ray_origins outer_products
      g_matrix j_matrix h2 (h2.trans h3.symm)]
    simp
  · cases solution_rotations with
    | none => simp [Upnp]
    | some pr =>
      cases solution_translations with
      | none => simp [Upnp]
      | some pt =>
        rw [Upnp_ok_of_lengths ray_origins ray_directions world_points pr pt
          h1 h2]
        simp

/-- Witness for C10 at a concrete equal-length input. -/
theorem c10_witness :
    ComputeHelperMatrices [(0 : Vec3)] [(0 : Vec3)] [(0 : Matrix3)] 1 ≠
        Except.error UpnpError.oobAccess ∧
      ComputeCostMatrices [(0 : Vec3)] [(0 : Vec3)] [(0 : Matrix3)] 0 0 ≠
          Except.error UpnpError.oobAccess ∧
      Upnp [(0 : Vec3)] [(0 : Vec3)] [(0 : Vec3)] (some []) (some []) ≠
          Except.error UpnpError.oobAccess :=
  c10_no_oob_under_equal_lengths [(0 : Vec3)] [(0 : Vec3)] [(0 : Vec3)]
    [(0 : Matrix3)] 0 0 1 (some []) (some []) rfl rfl rfl

/-- C9 counterexample: with `ray_origins` and `ray_directions` of length 1
but `world_points` empty — sequence lengths not all equal and both output
pointers valid — the call does NOT fail a contract check: it reaches an
out-of-bounds access (`world_points[0]` in the helper loop) instead. -/
theorem c9_counterexample :
    Upnp [(0 : Vec3)] [(0 : Vec3)] [] (some []) (some []) =
        Except.error UpnpError.oobAccess ∧
      UpnpError.oobAccess ≠ UpnpError.checkFailure := by
  refine ⟨?_, by decide⟩
  have hops := ComputeHMatrixAndRayDirectionsOuterProducts_spec
    [(0 : Vec3)]
  simp [Upnp, hops, ComputeHelperMatrices, helperBody, vecIndex,
    List.range_succ, List.foldlM, Bind.bind, Except.bind]

/-- C9 amended: a null output pointer, or a mismatch between the
`ray_origins` and `ray_directions` lengths, makes the call abort with a
contract-check failure (a `world_points` length mismatch is not checked;
it leads to an out-of-bounds access instead, per `c9_counterexample`). -/
theorem c9_amended_contract_checks
    (ray_origins ray_directions world_points : List Vec3)
    (solution_rotations : Option (List Vec4))
    (solution_translations : Option (List Vec3))
    (h : solution_rotations = none ∨ solution_translations = none ∨
      ray_origins.length ≠ ray_directions.length) :
    Upnp ray_origins ray_directions world_points solution_rotations
      solution_translations = Except.error UpnpError.checkFailure := by
  cases solution_rotations with
  | none => rfl
  | some pr =>
    cases solution_translations with
    | none => rfl
    | some pt =>
      rcases h with h | h | h
      · exact Option.noConfusion h
      · exact Option.noConfusion h
      · have hlen : ¬ ray_origins.length =
            (ComputeHMatrixAndRayDirectionsOuterProducts ray_directions).2.length := by
          rw [outer_products_len]; exact h
        simp [Upnp, ComputeHelperMatrices, hlen, Bind.bind, Except.bind]

/-- Witness for the amended C9: a null rotations output aborts with a
contract-check failure. -/
theorem c9_amended_witness :
    Upnp [] [] [] none (some []) = Except.error UpnpError.checkFailure :=
  c9_amended_contract_checks [] [] [] none (some []) (Or.inl rfl)

/-- C1 (evaluating the code at the failing scene): a noiseless synthetic
scene with true pose `R* = I`, `t* = 0` — six unit-norm world points in
general position, each observed along the ray from the origin through the
point, so that `direction = R*·point + t*` exactly — runs the full
pipeline, yet the returned candidate list is empty: it contains no pose at
all, in particular none equal to `{R*, t*}`. -/
theorem c1_roundtrip_fails_candidates_empty :
    (∀ d ∈ ([![1, 0, 0], ![0, 1, 0], ![0, 0, 1], ![3/5, 4/5, 0],
        ![0, 3/5, 4/5], ![4/5, 0, 3/5]] : List Vec3),
      Matrix.dotProduct d d = 1) ∧
    Upnp (List.replicate 6 (0 : Vec3))
        [![1, 0, 0], ![0, 1, 0], ![0, 0, 1], ![3/5, 4/5, 0],
          ![0, 3/5, 4/5], ![4/5, 0, 3/5]]
        [![1, 0, 0], ![0, 1, 0], ![0, 0, 1], ![3/5, 4/5, 0],
          ![0, 3/5, 4/5], ![4/5, 0, 3/5]]
        (some []) (some []) = Except.ok ([], []) := by
  constructor
  · intro d hd
    fin_cases hd <;> norm_num [Matrix.dotProduct, Fin.sum_univ_three]
  · exact Upnp_ok_of_lengths _ _ _ _ _ rfl rfl

/-- C6: the `LeftMultiply` table is the quaternion-to-rotation formula:
for every point `p` and unit quaternion `q`, `Φ(p)·q̂ = R(q)·p`; and
`Φ(p)` is linear in `p` (its entries being 0, ± a coordinate of `p`, or
± its double). -/
theorem c6_left_multiply_is_rotation_formula (p : Vec3) (q : Vec4)
    (hq : q 0 * q 0 + q 1 * q 1 + q 2 * q 2 + q 3 * q 3 = 1) :
    (LeftMultiply p).mulVec (qhat q) = (quatRotationMatrix q).mulVec p ∧
    ∀ (a b : ℚ) (p1 p2 : Vec3),
      LeftMultiply (a • p1 + b • p2) =
        a • LeftMultiply p1 + b • LeftMultiply p2 := by
  constructor
  · funext i
    fin_cases i <;>
      simp [LeftMultiply, quatRotationMatrix, qhat, Matrix.mulVec,
        Matrix.dotProduct, Fin.sum_univ_succ]
    · linear_combination p 0 * hq
    · linear_combination p 1 * hq
    · linear_combination p 2 * hq
  · intro a b p1 p2
    rw [← Matrix.ext_iff]
    simp only [LeftMultiply, Fin.forall_fin_succ, IsEmpty.forall_iff,
      Matrix.of_apply, Matrix.cons_val_zero, Matrix.cons_val_succ,
      Matrix.add_apply, Matrix.smul_apply, Pi.add_apply, Pi.smul_apply,
      smul_eq_mul, and_true]
    repeat' apply And.intro
    all_goals ring

/-- Witness for C6 at the identity quaternion and the point `(1, 2, 3)`. -/
theorem c6_witness :
    (LeftMultiply ![1, 2, 3]).mulVec (qhat ![1, 0, 0, 0]) =
        (quatRotationMatrix ![1, 0, 0, 0]).mulVec ![1, 2, 3] ∧
      ∀ (a b : ℚ) (p1 p2 : Vec3),
        LeftMultiply (a • p1 + b • p2) =
          a • LeftMultiply p1 + b • LeftMultiply p2 :=
  c6_left_multiply_is_rotation_formula ![1, 2, 3] ![1, 0, 0, 0] (by norm_num)

/-! ## Symmetry and positive semi-definiteness of the accumulated `A` -/

theorem vecIndex_ok_inv {α : Type} {l : List α} {i : Nat} {a : α} (d : α)
    (h : vecIndex l i = Except.ok a) : l.getD i d = a := by
  unfold vecIndex at h
  cases hg : l.get? i with
  | none => rw [hg] at h; cases h
  | some b =>
    rw [hg] at h
    cases h
    rw [List.get?_eq_getElem?] at hg
    simp [List.getD, hg]

theorem costBody_ok_inv (world_points ray_origins : List Vec3)
    (outer_products : List Matrix3) (g_matrix : Matrix3x10d) (j_matrix : Vec3)
    (abg v : Matrix10d × Vector10d × ℚ) (i : Nat)
    (h : costBody world_points ray_origins outer_products g_matrix j_matrix
      abg i = Except.ok v) :
    v = costStep world_points ray_origins outer_products g_matrix j_matrix
      abg i := by
  unfold costBody at h
  simp only [Bind.bind, Except.bind] at h
  cases h1 : vecIndex world_points i with
  | error e => rw [h1] at h; cases h
  | ok wp =>
    rw [h1] at h
    cases h2 : vecIndex outer_products i with
    | error e => rw [h2] at h; cases h
    | ok op =>
      rw [h2] at h
      cases h3 : vecIndex ray_origins i with
      | error e => rw [h3] at h; cases h
      | ok ro =>
        rw [h3] at h
        cases h
        simp only [costStep, tempAMat, tempBVec,
          vecIndex_ok_inv (0 : Vec3) h1, vecIndex_ok_inv (0 : Matrix3) h2,
          vecIndex_ok_inv (0 : Vec3) h3]

theorem foldlM_ok_inv {β : Type} (f : β → Nat → Except UpnpError β)
    (g : β → Nat → β) (hf : ∀ b i v, f b i = Except.ok v → v = g b i) :
    ∀ (l : List Nat) (b r : β), l.foldlM f b = Except.ok r →
      r = l.foldl g b := by
  intro l
  induction l with
  | nil => intro b r h; cases h; rfl
  | cons a l ih =>
    intro b r h
    simp only [List.foldlM, Bind.bind, Except.bind] at h
    cases ha : f b a with
    | error e => rw [ha] at h; cases h
    | ok v =>
      rw [ha] at h
      have hv := hf b a v ha
      subst hv
      exact ih (g b a) r h

theorem tT_mul_t_symm (t : Matrix3x10d) : (tᵀ * t)ᵀ = tᵀ * t := by
  rw [Matrix.transpose_mul, Matrix.transpose_transpose]

theorem tT_mul_t_psd (t : Matrix3x10d) (x : Vector10d) :
    0 ≤ Matrix.dotProduct x ((tᵀ * t).mulVec x) := by
  rw [← Matrix.mulVec_mulVec, Matrix.dotProduct_mulVec,
    Matrix.vecMul_transpose]
  exact dotProduct_self_nonneg3 (t.mulVec x)

theorem cost_partial_a (world_points ray_origins : List Vec3)
    (outer_products : List Matrix3) (g_matrix : Matrix3x10d) (j_matrix : Vec3)
    (k : Nat) :
    ((List.range k).foldl
        (costStep world_points ray_origins outer_products g_matrix j_matrix)
        (0, 0, 0)).1 =
      ∑ i ∈ Finset.range k,
        (tempAMat world_points outer_products g_matrix i)ᵀ *
          tempAMat world_points outer_products g_matrix i := by
  rw [cost_foldl_spec]

theorem sum_tT_mul_t_symm (T : Nat → Matrix3x10d) (k : Nat) :
    (∑ i ∈ Finset.range k, (T i)ᵀ * T i)ᵀ =
      ∑ i ∈ Finset.range k, (T i)ᵀ * T i := by
  rw [Matrix.transpose_sum]
  exact Finset.sum_congr rfl fun i _ => tT_mul_t_symm (T i)

theorem sum_tT_mul_t_psd (T : Nat → Matrix3x10d) (k : Nat) (x : Vector10d) :
    0 ≤ Matrix.dotProduct x
      ((∑ i ∈ Finset.range k, (T i)ᵀ * T i).mulVec x) := by
  induction k with
  | zero => simp
  | succ k ih =>
    rw [Finset.sum_range_succ, Matrix.add_mulVec, Matrix.dotProduct_add]
    exact add_nonneg ih (tT_mul_t_psd (T k) x)

/-- C7: the accumulated 10×10 matrix `A` is symmetric and positive
semi-definite after every per-correspondence accumulation step (partial
fold over the first `k` correspondences), and in particular whenever
`ComputeCostMatrices` returns, the returned `A` is symmetric and PSD. -/
theorem c7_a_matrix_symmetric_psd (world_points ray_origins : List Vec3)
    (outer_products : List Matrix3) (g_matrix : Matrix3x10d) (j_matrix : Vec3)
    (k : Nat) :
    (((List.range k).foldl
          (costStep world_points ray_origins outer_products g_matrix
            j_matrix) (0, 0, 0)).1ᵀ =
        ((List.range k).foldl
          (costStep world_points ray_origins outer_products g_matrix
            j_matrix) (0, 0, 0)).1 ∧
      ∀ x : Vector10d,
        0 ≤ Matrix.dotProduct x
          (((List.range k).foldl
              (costStep world_points ray_origins outer_products g_matrix
                j_matrix) (0, 0, 0)).1.mulVec x)) ∧
    ∀ (a : Matrix10d) (b : Vector10d) (gamma : ℚ),
      ComputeCostMatrices world_points ray_origins outer_products g_matrix
          j_matrix = Except.ok (a, b, gamma) →
        aᵀ = a ∧ ∀ x : Vector10d, 0 ≤ Matrix.dotProduct x (a.mulVec x) := by
  constructor
  · rw [cost_partial_a]
    exact ⟨sum_tT_mul_t_symm _ k, fun x => sum_tT_mul_t_psd _ k x⟩
  · intro a b gamma h
    have hr := foldlM_ok_inv
      (costBody world_points ray_origins outer_products g_matrix j_matrix)
      (costStep world_points ray_origins outer_products g_matrix j_matrix)
      (fun abg i v hv => costBody_ok_inv world_points ray_origins
        outer_products g_matrix j_matrix abg v i hv)
      (List.range world_points.length) (0, 0, 0) (a, b, gamma) h
    have ha : a = ((List.range world_points.length).foldl
        (costStep world_points ray_origins outer_products g_matrix j_matrix)
        (0, 0, 0)).1 := by rw [← hr]
    rw [ha, cost_partial_a]
    exact ⟨sum_tT_mul_t_symm _ _, fun x => sum_tT_mul_t_psd _ _ x⟩

/-- Witness for C7 at a concrete one-correspondence input (`k = 1`). -/
theorem c7_witness :
    (((List.range 1).foldl
          (costStep [(0 : Vec3)] [(0 : Vec3)] [(0 : Matrix3)] 0 0)
          (0, 0, 0)).1ᵀ =
        ((List.range 1).foldl
          (costStep [(0 : Vec3)] [(0 : Vec3)] [(0 : Matrix3)] 0 0)
          (0, 0, 0)).1 ∧
      ∀ x : Vector10d,
        0 ≤ Matrix.dotProduct x
          (((List.range 1).foldl
              (costStep [(0 : Vec3)] [(0 : Vec3)] [(0 : Matrix3)] 0 0)
              (0, 0, 0)).1.mulVec x)) ∧
    ∀ (a : Matrix10d) (b : Vector10d) (gamma : ℚ),
      ComputeCostMatrices [(0 : Vec3)] [(0 : Vec3)] [(0 : Matrix3)] 0 0 =
          Except.ok (a, b, gamma) →
        aᵀ = a ∧ ∀ x : Vector10d, 0 ≤ Matrix.dotProduct x (a.mulVec x) :=
  c7_a_matrix_symmetric_psd [(0 : Vec3)] [(0 : Vec3)] [(0 : Matrix3)] 0 0 1

/-! ## Permutation invariance machinery -/

theorem getD_map_of_lt {α β : Type} (f : α → β) (l : List α) (d : α) (d' : β)
    {i : Nat} (h : i < l.length) :
    (l.map f).getD i d' = f (l.getD i d) := by
  rw [List.getD_eq_getElem _ _ (by simpa using h), List.getD_eq_getElem _ _ h,
    List.getElem_map]

theorem zip3_map_fst {α β γ : Type} :
    ∀ (a : List α) (b : List β) (c : List γ),
      b.length = a.length → c.length = a.length →
        (a.zip (b.zip c)).map (fun t => t.1) = a := by
  intro a
  induction a with
  | nil => intro b c _ _; simp
  | cons x xs ih =>
    intro b c hb hc
    cases b with
    | nil => cases hb
    | cons y ys =>
      cases c with
      | nil => cases hc
      | cons z zs =>
        simp only [List.zip_cons_cons, List.map_cons]
        rw [ih ys zs (by simpa using hb) (by simpa using hc)]

theorem zip3_map_snd_fst {α β γ : Type} :
    ∀ (a : List α) (b : List β) (c : List γ),
      b.length = a.length → c.length = a.length →
        (a.zip (b.zip c)).map (fun t => t.2.1) = b := by
  intro a
  induction a with
  | nil =>
    intro b c hb _
    rw [List.length_nil] at hb
    rw [List.length_eq_zero.mp hb]
    simp
  | cons x xs ih =>
    intro b c hb hc
    cases b with
    | nil => cases hb
    | cons y ys =>
      cases c with
      | nil => cases hc
      | cons z zs =>
        simp only [List.zip_cons_cons, List.map_cons]
        rw [ih ys zs (by simpa using hb) (by simpa using hc)]

theorem sum_range_zip3 {α β γ M : Type} [AddCommMonoid M]
    (F : α → β → γ → M) (da : α) (db : β) (dc : γ) :
    ∀ (a : List α) (b : List β) (c : List γ),
      b.length = a.length → c.length = a.length →
        ∑ i ∈ Finset.range a.length,
            F (a.getD i da) (b.getD i db) (c.getD i dc) =
          ((a.zip (b.zip c)).map fun t => F t.1 t.2.1 t.2.2).sum := by
  intro a
  induction a with
  | nil => intro b c _ _; simp
  | cons x xs ih =>
    intro b c hb hc
    cases b with
    | nil => cases hb
    | cons y ys =>
      cases c with
      | nil => cases hc
      | cons z zs =>
        simp only [List.zip_cons_cons, List.map_cons, List.sum_cons,
          List.length_cons]
        rw [Finset.sum_range_succ']
        simp only [List.getD_cons_succ, List.getD_cons_zero]
        rw [ih ys zs (by simpa using hb) (by simpa using hc)]
        exact add_comm _ _

theorem UpnpPipeline_ok (ray_origins ray_directions world_points : List Vec3)
    (h1 : ray_directions.length = ray_origins.length)
    (h2 : world_points.length = ray_origins.length) :
    UpnpPipeline ray_origins ray_directions world_points =
      Except.ok (pipeH ray_directions,
        (pipeG ray_origins ray_directions world_points,
         pipeJ ray_origins ray_directions),
        (pipeA ray_origins ray_directions world_points,
         pipeB ray_origins ray_directions world_points,
         pipeGamma ray_origins ray_directions world_points)) := by
  unfold UpnpPipeline
  rw [ComputeHMatrixAndRayDirectionsOuterProducts_spec]
  dsimp only
  rw [ComputeHelperMatrices_ok world_points ray_origins
    (ray_directions.map rayOuterProduct)
    (inverse3 ((ray_directions.length : ℚ) • (1 : Matrix3) -
      (ray_directions.map rayOuterProduct).sum))
    (by rw [List.length_map]; exact h1.symm) h2]
  simp only [Bind.bind, Except.bind]
  rw [ComputeCostMatrices_ok world_points ray_origins
    (ray_directions.map rayOuterProduct) _ _ h2
    (by rw [List.length_map]; exact h2.trans h1.symm)]
  unfold pipeH pipeG pipeJ pipeA pipeB pipeGamma pipeOps
  rfl

theorem vMatrix_getD (rd : List Vec3) (h : Matrix3) {i : Nat}
    (hi : i < rd.length) :
    vMatrix (pipeOps rd) h i =
      h * (rayOuterProduct (rd.getD i 0) - 1) := by
  unfold vMatrix pipeOps
  rw [getD_map_of_lt rayOuterProduct rd 0 0 hi]

theorem tempAMat_getD (wp rd : List Vec3) (g : Matrix3x10d) {i : Nat}
    (hi : i < rd.length) :
    tempAMat wp (pipeOps rd) g i =
      (rayOuterProduct (rd.getD i 0) - 1) *
        (LeftMultiply (wp.getD i 0) + g) := by
  unfold tempAMat pipeOps
  rw [getD_map_of_lt rayOuterProduct rd 0 0 hi]

theorem tempBVec_getD (ro rd : List Vec3) (j : Vec3) {i : Nat}
    (hi : i < rd.length) :
    tempBVec ro (pipeOps rd) j i =
      (-(rayOuterProduct (rd.getD i 0) - 1)).mulVec (ro.getD i 0 + j) := by
  unfold tempBVec pipeOps
  rw [getD_map_of_lt rayOuterProduct rd 0 0 hi]

theorem pipe_sum_perm {M : Type} [AddCommMonoid M]
    (ro rd wp ro' rd' wp' : List Vec3)
    (l1 : rd.length = ro.length) (l2 : wp.length = ro.length)
    (l1' : rd'.length = ro'.length) (l2' : wp'.length = ro'.length)
    (hperm : (ro.zip (rd.zip wp)).Perm (ro'.zip (rd'.zip wp')))
    (F : Vec3 → Vec3 → Vec3 → M) :
    ∑ i ∈ Finset.range ro.length,
        F (ro.getD i 0) (rd.getD i 0) (wp.getD i 0) =
      ∑ i ∈ Finset.range ro'.length,
        F (ro'.getD i 0) (rd'.getD i 0) (wp'.getD i 0) := by
  rw [sum_range_zip3 F 0 0 0 ro rd wp l1 l2,
    sum_range_zip3 F 0 0 0 ro' rd' wp' l1' l2']
  exact (hperm.map _).sum_eq

/-- C8: per-correspondence additivity — permuting the three correspondence
sequences simultaneously leaves every quantity the pipeline computes
(`H`, `G`, `J`, `A`, `b`, `γ`) unchanged. -/
theorem c8_permutation_invariance (ro rd wp ro' rd' wp' : List Vec3)
    (l1 : rd.length = ro.length) (l2 : wp.length = ro.length)
    (l1' : rd'.length = ro'.length) (l2' : wp'.length = ro'.length)
    (hperm : (ro.zip (rd.zip wp)).Perm (ro'.zip (rd'.zip wp'))) :
    UpnpPipeline ro rd wp = UpnpPipeline ro' rd' wp' := by
  have hzl : (ro.zip (rd.zip wp)).length = ro.length := by
    simp [l1, l2]
  have hzl' : (ro'.zip (rd'.zip wp')).length = ro'.length := by
    simp [l1', l2']
  have hn : ro.length = ro'.length := by
    rw [← hzl, ← hzl']
    exact hperm.length_eq
  have hrd := zip3_map_snd_fst ro rd wp l1 l2
  have hrd' := zip3_map_snd_fst ro' rd' wp' l1' l2'
  have hrdlen : rd.length = rd'.length := by rw [l1, l1', hn]
  have hops : (rd.map rayOuterProduct).sum = (rd'.map rayOuterProduct).sum := by
    rw [← hrd, ← hrd', List.map_map, List.map_map]
    exact (hperm.map _).sum_eq
  have hH : pipeH rd = pipeH rd' := by
    unfold pipeH pipeOps
    rw [hops, hrdlen]
  have hG : pipeG ro rd wp = pipeG ro' rd' wp' := by
    unfold pipeG
    rw [← hH]
    calc ∑ i ∈ Finset.range ro.length,
          vMatrix (pipeOps rd) (pipeH rd) i * LeftMultiply (wp.getD i 0)
        = ∑ i ∈ Finset.range ro.length,
            (fun o d w => pipeH rd * (rayOuterProduct d - 1) * LeftMultiply w)
              (ro.getD i 0) (rd.getD i 0) (wp.getD i 0) :=
          Finset.sum_congr rfl fun i hi => by
            rw [vMatrix_getD rd _ (by rw [l1]; exact Finset.mem_range.mp hi)]
      _ = ∑ i ∈ Finset.range ro'.length,
            (fun o d w => pipeH rd * (rayOuterProduct d - 1) * LeftMultiply w)
              (ro'.getD i 0) (rd'.getD i 0) (wp'.getD i 0) :=
          pipe_sum_perm ro rd wp ro' rd' wp' l1 l2 l1' l2' hperm
            (fun o d w => pipeH rd * (rayOuterProduct d - 1) * LeftMultiply w)
      _ = ∑ i ∈ Finset.range ro'.length,
            vMatrix (pipeOps rd') (pipeH rd) i * LeftMultiply (wp'.getD i 0) :=
          (Finset.sum_congr rfl fun i hi => by
            rw [vMatrix_getD rd' _
              (by rw [l1']; exact Finset.mem_range.mp hi)]).symm
  have hJ : pipeJ ro rd = pipeJ ro' rd' := by
    unfold pipeJ
    rw [← hH]
    calc ∑ i ∈ Finset.range ro.length,
          (vMatrix (pipeOps rd) (pipeH rd) i).mulVec (ro.getD i 0)
        = ∑ i ∈ Finset.range ro.length,
            (fun o d w => (pipeH rd * (rayOuterProduct d - 1)).mulVec o)
              (ro.getD i 0) (rd.getD i 0) (wp.getD i 0) :=
          Finset.sum_congr rfl fun i hi => by
            rw [vMatrix_getD rd _ (by rw [l1]; exact Finset.mem_range.mp hi)]
      _ = ∑ i ∈ Finset.range ro'.length,
            (fun o d w => (pipeH rd * (rayOuterProduct d - 1)).mulVec o)
              (ro'.getD i 0) (rd'.getD i 0) (wp'.getD i 0) :=
          pipe_sum_perm ro rd wp ro' rd' wp' l1 l2 l1' l2' hperm
            (fun o d w => (pipeH rd * (rayOuterProduct d - 1)).mulVec o)
      _ = ∑ i ∈ Finset.range ro'.length,
            (vMatrix (pipeOps rd') (pipeH rd) i).mulVec (ro'.getD i 0) :=
          (Finset.sum_congr rfl fun i hi => by
            rw [vMatrix_getD rd' _
              (by rw [l1']; exact Finset.mem_range.mp hi)]).symm
  have hA : pipeA ro rd wp = pipeA ro' rd' wp' := by
    unfold pipeA
    rw [← hG]
    calc ∑ i ∈ Finset.range wp.length,
          (tempAMat wp (pipeOps rd) (pipeG ro rd wp) i)ᵀ *
            tempAMat wp (pipeOps rd) (pipeG ro rd wp) i
        = ∑ i ∈ Finset.range ro.length,
            (fun o d w =>
              ((rayOuterProduct d - 1) *
                  (LeftMultiply w + pipeG ro rd wp))ᵀ *
                ((rayOuterProduct d - 1) *
                  (LeftMultiply w + pipeG ro rd wp)))
              (ro.getD i 0) (rd.getD i 0) (wp.getD i 0) := by
          rw [l2]
          exact Finset.sum_congr rfl fun i hi => by
            rw [tempAMat_getD wp rd _
              (by rw [l1]; exact Finset.mem_range.mp hi)]
      _ = ∑ i ∈ Finset.range ro'.length,
            (fun o d w =>
              ((rayOuterProduct d - 1) *
                  (LeftMultiply w + pipeG ro rd wp))ᵀ *
                ((rayOuterProduct d - 1) *
                  (LeftMultiply w + pipeG ro rd wp)))
              (ro'.getD i 0) (rd'.getD i 0) (wp'.getD i 0) :=
          pipe_sum_perm ro rd wp ro' rd' wp' l1 l2 l1' l2' hperm
            (fun o d w =>
              ((rayOuterProduct d - 1) *
                  (LeftMultiply w + pipeG ro rd wp))ᵀ *
                ((rayOuterProduct d - 1) * (LeftMultiply w + pipeG ro rd wp)))
      _ = ∑ i ∈ Finset.range wp'.length,
            (tempAMat wp' (pipeOps rd') (pipeG ro rd wp) i)ᵀ *
              tempAMat wp' (pipeOps rd') (pipeG ro rd wp) i := by
          rw [l2']
          exact (Finset.sum_congr rfl fun i hi => by
            rw [tempAMat_getD wp' rd' _
              (by rw [l1']; exact Finset.mem_range.mp hi)]).symm
  have hB : pipeB ro rd wp = pipeB ro' rd' wp' := by
    unfold pipeB
    rw [← hG, ← hJ]
    calc ∑ i ∈ Finset.range wp.length,
          (tempAMat wp (pipeOps rd) (pipeG ro rd wp) i)ᵀ.mulVec
            (tempBVec ro (pipeOps rd) (pipeJ ro rd) i)
        = ∑ i ∈ Finset.range ro.length,
            (fun o d w =>
              ((rayOuterProduct d - 1) *
                  (LeftMultiply w + pipeG ro rd wp))ᵀ.mulVec
                ((-(rayOuterProduct d - 1)).mulVec (o + pipeJ ro rd)))
              (ro.getD i 0) (rd.getD i 0) (wp.getD i 0) := by
          rw [l2]
          exact Finset.sum_congr rfl fun i hi => by
            rw [tempAMat_getD wp rd _
                (by rw [l1]; exact Finset.mem_range.mp hi),
              tempBVec_getD ro rd _
                (by rw [l1]; exact Finset.mem_range.mp hi)]
      _ = ∑ i ∈ Finset.range ro'.length,
            (fun o d w =>
              ((rayOuterProduct d - 1) *
                  (LeftMultiply w + pipeG ro rd wp))ᵀ.mulVec
                ((-(rayOuterProduct d - 1)).mulVec (o + pipeJ ro rd)))
              (ro'.getD i 0) (rd'.getD i 0) (wp'.getD i 0) :=
          pipe_sum_perm ro rd wp ro' rd' wp' l1 l2 l1' l2' hperm
            (fun o d w =>
              ((rayOuterProduct d - 1) *
                  (LeftMultiply w + pipeG ro rd wp))ᵀ.mulVec
                ((-(rayOuterProduct d - 1)).mulVec (o + pipeJ ro rd)))
      _ = ∑ i ∈ Finset.range wp'.length,
            (tempAMat wp' (pipeOps rd') (pipeG ro rd wp) i)ᵀ.mulVec
              (tempBVec ro' (pipeOps rd') (pipeJ ro rd) i) := by
          rw [l2']
          exact (Finset.sum_congr rfl fun i hi => by
            rw [tempAMat_getD wp' rd' _
                (by rw [l1']; exact Finset.mem_range.mp hi),
              tempBVec_getD ro' rd' _
                (by rw [l1']; exact Finset.mem_range.mp hi)]).symm
  have hGamma : pipeGamma ro rd wp = pipeGamma ro' rd' wp' := by
    unfold pipeGamma
    rw [← hJ]
    calc ∑ i ∈ Finset.range wp.length,
          Matrix.dotProduct (tempBVec ro (pipeOps rd) (pipeJ ro rd) i)
            (tempBVec ro (pipeOps rd) (pipeJ ro rd) i)
        = ∑ i ∈ Finset.range ro.length,
            (fun o d w =>
              Matrix.dotProduct
                ((-(rayOuterProduct d - 1)).mulVec (o + pipeJ ro rd))
                ((-(rayOuterProduct d - 1)).mulVec (o + pipeJ ro rd)))
              (ro.getD i 0) (rd.getD i 0) (wp.getD i 0) := by
          rw [l2]
          exact Finset.sum_congr rfl fun i hi => by
            rw [tempBVec_getD ro rd _
              (by rw [l1]; exact Finset.mem_range.mp hi)]
      _ = ∑ i ∈ Finset.range ro'.length,
            (fun o d w =>
              Matrix.dotProduct
                ((-(rayOuterProduct d - 1)).mulVec (o + pipeJ ro rd))
                ((-(rayOuterProduct d - 1)).mulVec (o + pipeJ ro rd)))
              (ro'.getD i 0) (rd'.getD i 0) (wp'.getD i 0) :=
          pipe_sum_perm ro rd wp ro' rd' wp' l1 l2 l1' l2' hperm
            (fun o d w =>
              Matrix.dotProduct
                ((-(rayOuterProduct d - 1)).mulVec (o + pipeJ ro rd))
                ((-(rayOuterProduct d - 1)).mulVec (o + pipeJ ro rd)))
      _ = ∑ i ∈ Finset.range wp'.length,
            Matrix.dotProduct (tempBVec ro' (pipeOps rd') (pipeJ ro rd) i)
              (tempBVec ro' (pipeOps rd') (pipeJ ro rd) i) := by
          rw [l2']
          exact (Finset.sum_congr rfl fun i hi => by
            rw [tempBVec_getD ro' rd' _
              (by rw [l1']; exact Finset.mem_range.mp hi)]).symm
  rw [UpnpPipeline_ok ro rd wp l1 l2, UpnpPipeline_ok ro' rd' wp' l1' l2',
    hH, hG, hJ, hA, hB, hGamma]

/-- Witness for C8: swapping the two correspondences of a concrete scene
leaves the whole pipeline result unchanged. -/
theorem c8_witness :
    UpnpPipeline [(0 : Vec3), (0 : Vec3)] [![1, 0, 0], ![0, 1, 0]]
        [![1, 2, 3], ![4, 5, 6]] =
      UpnpPipeline [(0 : Vec3), (0 : Vec3)] [![0, 1, 0], ![1, 0, 0]]
        [![4, 5, 6], ![1, 2, 3]] :=
  c8_permutation_invariance [(0 : Vec3), (0 : Vec3)]
    [![1, 0, 0], ![0, 1, 0]] [![1, 2, 3], ![4, 5, 6]]
    [(0 : Vec3), (0 : Vec3)] [![0, 1, 0], ![1, 0, 0]]
    [![4, 5, 6], ![1, 2, 3]] rfl rfl rfl rfl
    (List.Perm.swap ((0 : Vec3), (![0, 1, 0] : Vec3), (![4, 5, 6] : Vec3))
      ((0 : Vec3), (![1, 0, 0] : Vec3), (![1, 2, 3] : Vec3)) [])
